import Mathlib

/-!
Verification of the GPA/CGPA aggregation core of the GPA-Calculator
repository (Node/Express backend plus React frontend).

The numeric model is a shallow embedding over `ℚ` that follows the
JavaScript number semantics of the aggregation code.  The accumulated
`totalCredits` and `totalGradePoints` are integers, exactly representable
in binary64 at the magnitudes arising here, so the sums are modelled
exactly.  The quotient, however, is a binary64 division: the program
rounds the exact rational quotient to the nearest binary64 value
(53-bit significand, round-to-nearest ties-to-even — modelled by
`roundB64`, with unbounded exponent range, which agrees with IEEE-754
binary64 away from underflow and overflow), and only then applies
`toFixed(2)`.  ECMA-262 `toFixed` is exact on the mathematical value of
its double argument: it picks the integer `n` minimising `|n / 100 - x|`,
ties resolved to the larger `n` (modelled by `round2`).  The composite
`jsToFixed2 = round2 ∘ roundB64` is the program's
`parseFloat((p / c).toFixed(2))`.  The double rounding step matters: at
an exact quotient such as 81/40 = 2.025 the nearest double lies below
the tie and `toFixed(2)` returns 2.02, not the 2.03 that
round-half-away-from-zero of the exact rational would give.  A
JavaScript `NaN` arising from an out-of-scale grade lookup
(`undefined * credits`) is embedded as `Option.none`.
-/

namespace GPACalc

/-- The closed set of letter grades accepted by the backend
(`Course.js` schema `enum: ['A','B','C','D','F']`). -/
inductive Grade where
  | A | B | C | D | F
deriving DecidableEq

/-- The `gradePointMap` mapping from `src/server/models/Course.js` lines 44-50:
`{ A: 4.0, B: 3.0, C: 2.0, D: 1.0, F: 0.0 }`. -/
def gradePointMap : Grade → ℚ
  | Grade.A => 4
  | Grade.B => 3
  | Grade.C => 2
  | Grade.D => 1
  | Grade.F => 0

/-- The `gradeScale` mapping from `src/server/routes/courses.js` lines 542-548, the
second copy of the 4.0 scale used by the statistics summary endpoint. -/
def gradeScale : Grade → ℚ
  | Grade.A => 4
  | Grade.B => 3
  | Grade.C => 2
  | Grade.D => 1
  | Grade.F => 0

/-- Modelled from the spec (§4.1): the spec's single-source-of-truth
`scale` mapping A↦4.0, B↦3.0, C↦2.0, D↦1.0, F↦0.0, used to state the
spec-side `weightedPoints` formula. -/
def scale : Grade → ℚ
  | Grade.A => 4
  | Grade.B => 3
  | Grade.C => 2
  | Grade.D => 1
  | Grade.F => 0

/-- A persisted course as the aggregation functions see it: `credits`
(integer, validated to lie in `[1,4]`) and a letter `grade`
(`src/server/models/Course.js` schema). -/
structure Course where
  credits : ℕ
  grade : Grade
deriving DecidableEq

/-- The credits constraint enforced by `validateCourse`
(`src/server/routes/courses.js` lines 28-35) and the schema
(`Course.js` lines 21-30): integer credits between 1 and 4. -/
def validCourse (c : Course) : Prop :=
  1 ≤ c.credits ∧ c.credits ≤ 4

instance (c : Course) : Decidable (validCourse c) := by
  unfold validCourse; infer_instance

/-- The instance method `calculateGradePoints` from
`src/server/models/Course.js` lines 53-55:
`gradePointMap[this.grade] * this.credits` (on a validated grade). -/
def calculateGradePoints (c : Course) : ℚ :=
  gradePointMap c.grade * (c.credits : ℚ)

/-- Embedding of `parseFloat(x.toFixed(2))` as used by every GPA
computation in the backend, over the exact rational: ECMA-262 `toFixed`
picks the integer `n` with `n / 100` closest to `x`, ties to the larger
`n`; for the nonnegative values arising here this is
`⌊100 x + 1/2⌋ / 100`. -/
def round2 (x : ℚ) : ℚ :=
  ((⌊x * 100 + 1 / 2⌋ : ℤ) : ℚ) / 100

/-- Modelled from the spec (§4.2): `round2` described as
round-half-away-from-zero to 2 decimal places; for nonnegative `x` this
is `round (100 x) / 100` with Mathlib's `round` (ties up). -/
def round2Spec (x : ℚ) : ℚ :=
  ((round (x * 100) : ℤ) : ℚ) / 100

/-- Round to the nearest integer with ties to even, on `ℚ` — the
rounding rule of IEEE-754 round-to-nearest. -/
def roundNE (s : ℚ) : ℤ :=
  if s - ⌊s⌋ < 1 / 2 then ⌊s⌋
  else if 1 / 2 < s - ⌊s⌋ then ⌊s⌋ + 1
  else if ⌊s⌋ % 2 = 0 then ⌊s⌋ else ⌊s⌋ + 1

/-- Round a positive rational to the nearest binary64 value: scale into
`[2^52, 2^53)`, round the 53-bit significand to nearest ties-to-even,
and scale back.  The exponent is unbounded, so this agrees with IEEE-754
binary64 away from underflow and overflow — in particular on every
value arising in the GPA computations. -/
def roundB64Pos (q : ℚ) : ℚ :=
  let e : ℤ := Int.log 2 q - 52
  ((roundNE (q * 2 ^ (-e)) : ℤ) : ℚ) * 2 ^ e

/-- Binary64 rounding of a rational (sign-symmetric, 0 exact). -/
def roundB64 (q : ℚ) : ℚ :=
  if 0 < q then roundB64Pos q
  else if q < 0 then -roundB64Pos (-q)
  else 0

/-- The program's `parseFloat((p / c).toFixed(2))` on the exact quotient
`x = p / c`: the division first rounds `x` to binary64 (JavaScript `/`
is a correctly rounded binary64 division of the exactly represented
integer sums), then ECMA-262 `toFixed(2)` rounds the resulting double's
exact value to the nearest hundredth, ties away from zero. -/
def jsToFixed2 (x : ℚ) : ℚ :=
  round2 (roundB64 x)

/-- The helper `calculateSemesterGPA` from `src/server/routes/semesters.js` lines
10-24 (and the identical `calculateSemesterGPA` of
`src/server/routes/reports.js` lines 32-42), as a function of the
semester's populated course list: return 0 on an empty list, otherwise
accumulate credits and grade points with `reduce` and round the
quotient. -/
def calculateSemesterGPA (courses : List Course) : ℚ :=
  if courses.length = 0 then 0
  else
    let totalCredits := courses.foldl (fun sum c => sum + (c.credits : ℚ)) 0
    let totalGradePoints := courses.foldl (fun sum c => sum + calculateGradePoints c) 0
    jsToFixed2 (totalGradePoints / totalCredits)

/-- The helper `calculateCGPA` from `src/server/routes/semesters.js` lines 26-45
(and the identical copy in `src/server/routes/reports.js` lines 11-30),
as a function of the user's semesters, each given by its populated
course list: 0 when there are no semesters, otherwise a double `forEach`
accumulating credits and grade points over every course of every
semester, returning 0 when the accumulated credits are 0 and the rounded
quotient otherwise. -/
def calculateCGPA (semesters : List (List Course)) : ℚ :=
  if semesters.length = 0 then 0
  else
    let totalCredits :=
      semesters.foldl (fun sum sem =>
        sem.foldl (fun s c => s + (c.credits : ℚ)) sum) 0
    let totalGradePoints :=
      semesters.foldl (fun sum sem =>
        sem.foldl (fun s c => s + calculateGradePoints c) sum) 0
    if totalCredits = 0 then 0
    else jsToFixed2 (totalGradePoints / totalCredits)

/-- Modelled from the spec (§4.1): `weightedPoints(grade, credits) =
scale[grade] * credits`, exact. -/
def weightedPoints (g : Grade) (credits : ℕ) : ℚ :=
  scale g * (credits : ℚ)

/-- Modelled from the spec (§4.2): semester GPA as
`round2(Σ weightedPoints / Σ credits)` with the empty list mapped
to 0. -/
def semesterGPASpec (courses : List Course) : ℚ :=
  if courses = [] then 0
  else
    round2Spec ((courses.map (fun c => weightedPoints c.grade c.credits)).sum /
      ((courses.map (fun c => (c.credits : ℚ))).sum))

/-- Modelled from the spec (§4.3): CGPA over the flattened pool of every
course of every semester, 0 when the pool is empty. -/
def cgpaSpec (semesters : List (List Course)) : ℚ :=
  let pool := semesters.flatten
  if pool = [] then 0
  else
    round2Spec ((pool.map (fun c => weightedPoints c.grade c.credits)).sum /
      ((pool.map (fun c => (c.credits : ℚ))).sum))

/-- Modelled from the spec (§4.2) as amended by the program's binary64
behaviour: semester GPA is `Σ weightedPoints / Σ credits` evaluated as a
binary64 division and then rounded half-away-from-zero to 2 decimal
places (ECMA `toFixed` on the double), with the empty list mapped
to 0. -/
def semesterGPAAmended (courses : List Course) : ℚ :=
  if courses = [] then 0
  else
    round2Spec (roundB64 ((courses.map (fun c => weightedPoints c.grade c.credits)).sum /
      ((courses.map (fun c => (c.credits : ℚ))).sum)))

/-- Modelled from the spec (§4.3) as amended by the program's binary64
behaviour: CGPA over the flattened pool, the quotient evaluated as a
binary64 division before the 2-decimal rounding, 0 when the pool is
empty. -/
def cgpaAmended (semesters : List (List Course)) : ℚ :=
  let pool := semesters.flatten
  if pool = [] then 0
  else
    round2Spec (roundB64 ((pool.map (fun c => weightedPoints c.grade c.credits)).sum /
      ((pool.map (fun c => (c.credits : ℚ))).sum)))

/-- The 11-course list on which the exact quotient is 81 / 40 = 2.025,
an exact hundredth tie: five 4-credit A's, one 1-credit D, and 19
credits of F's. -/
def tieCourses : List Course :=
  [Course.mk 4 Grade.A, Course.mk 4 Grade.A, Course.mk 4 Grade.A,
   Course.mk 4 Grade.A, Course.mk 4 Grade.A, Course.mk 1 Grade.D,
   Course.mk 4 Grade.F, Course.mk 4 Grade.F, Course.mk 4 Grade.F,
   Course.mk 4 Grade.F, Course.mk 3 Grade.F]

-- ============ statistics summary (GET /courses/stats/summary) ============

/-- JavaScript `Math.round` as used for the pass rate
(`src/server/routes/courses.js` line 616): nearest integer, ties up —
exact for the nonnegative rationals arising here. -/
def jsRound (x : ℚ) : ℤ := ⌊x + 1 / 2⌋

/-- The classifier `getPerformanceLevel` from `src/server/routes/courses.js` lines
631-637: fixed thresholds tested in descending order. -/
def getPerformanceLevel (gpaValue : ℚ) : String :=
  if gpaValue ≥ 7 / 2 then "Excellent"
  else if gpaValue ≥ 3 then "Good"
  else if gpaValue ≥ 5 / 2 then "Satisfactory"
  else if gpaValue ≥ 2 then "Fair"
  else "Needs Improvement"

/-- Modelled from the spec (§4.4): the threshold table of
`performanceLevel`, in the descending order the spec lists. -/
def performanceThresholds : List (ℚ × String) :=
  [(7 / 2, "Excellent"), (3, "Good"), (5 / 2, "Satisfactory"), (2, "Fair")]

/-- Modelled from the spec (§4.4): evaluate the thresholds in descending
order and return the first match, defaulting to "Needs Improvement". -/
def performanceLevelSpec (gpa : ℚ) : String :=
  match performanceThresholds.find? (fun p => decide (p.1 ≤ gpa)) with
  | some p => p.2
  | none => "Needs Improvement"

/-- One step of the `gradeDistribution[grade]++` accumulation
(`src/server/routes/courses.js` line 601). -/
def bumpCount (d : Grade → ℕ) (g : Grade) : Grade → ℕ :=
  fun g2 => if g2 = g then d g2 + 1 else d g2

/-- One step of the `creditDistribution[grade] += course.credits`
accumulation (`src/server/routes/courses.js` line 602). -/
def bumpCredits (d : Grade → ℕ) (g : Grade) (cr : ℕ) : Grade → ℕ :=
  fun g2 => if g2 = g then d g2 + cr else d g2

/-- The `gradeDistribution` object built by the summary endpoint
(`src/server/routes/courses.js` lines 579-603): all five keys present,
initialised to 0, incremented per course. -/
def gradeDistributionOf (courses : List Course) : Grade → ℕ :=
  courses.foldl (fun d c => bumpCount d c.grade) (fun _ => 0)

/-- The `creditDistribution` object built by the summary endpoint
(`src/server/routes/courses.js` lines 591-603). -/
def creditDistributionOf (courses : List Course) : Grade → ℕ :=
  courses.foldl (fun d c => bumpCredits d c.grade c.credits) (fun _ => 0)

/-- The `gradeDistribution` object as the summary endpoint actually
returns it: the response spreads the five per-grade counts together with
a sixth `passRate` entry into one object — `{...gradeDistribution,
passRate: passRate()}` at `src/server/routes/courses.js` lines 659-662,
and the zeroed literal with `passRate: 0` inside it at lines 515-521. -/
structure GradeDistResponse where
  counts : Grade → ℕ
  passRate : ℤ

/-- The statistics record assembled by `GET /courses/stats/summary`
(`src/server/routes/courses.js` lines 487-691), restricted to the fields
the claims are about.  Note `gradeDistribution` is the six-entry
response object (five grade counts plus `passRate`), while
`creditDistribution` has exactly the five grade keys. -/
structure StatsSummary where
  gpa : ℚ
  totalCourses : ℕ
  totalCredits : ℕ
  gradeDistribution : GradeDistResponse
  creditDistribution : Grade → ℕ
  performanceLevel : String

/-- Endpoint `GET /courses/stats/summary` over the authenticated user's course
list (`src/server/routes/courses.js` lines 487-691): the zeroed record
with `performanceLevel = "N/A"` for an empty list, otherwise the
single-pass accumulation with `gradeScale`, the two distributions, the
pass rate `Math.round(passed / total * 100)` and
`getPerformanceLevel(gpa)`. -/
def statsSummary (courses : List Course) : StatsSummary :=
  if courses.length = 0 then
    { gpa := 0, totalCourses := 0, totalCredits := 0,
      gradeDistribution := { counts := fun _ => 0, passRate := 0 },
      creditDistribution := fun _ => 0,
      performanceLevel := "N/A" }
  else
    let totalCredits : ℕ := courses.foldl (fun s c => s + c.credits) 0
    let totalGradePoints :=
      courses.foldl (fun s c => s + gradeScale c.grade * (c.credits : ℚ)) 0
    let gpa := if 0 < totalCredits then jsToFixed2 (totalGradePoints / (totalCredits : ℚ)) else 0
    let gradeDistribution := gradeDistributionOf courses
    let creditDistribution := creditDistributionOf courses
    let failedCourses := gradeDistribution Grade.F
    let passedCourses := courses.length - failedCourses
    { gpa := gpa,
      totalCourses := courses.length,
      totalCredits := totalCredits,
      gradeDistribution :=
        { counts := gradeDistribution,
          passRate := jsRound ((passedCourses : ℚ) / (courses.length : ℚ) * 100) },
      creditDistribution := creditDistribution,
      performanceLevel := getPerformanceLevel gpa }

-- ============ duck-typed (string-level) grade computation ============

/-- The `gradePointMap` object of `src/server/models/Course.js` under
JavaScript member access: a present key returns its value, a missing key
returns `undefined`, embedded as `none`. -/
def gradePointMapLookup (grade : String) : Option ℚ :=
  if grade = "A" then some 4
  else if grade = "B" then some 3
  else if grade = "C" then some 2
  else if grade = "D" then some 1
  else if grade = "F" then some 0
  else none

/-- The method `calculateGradePoints` at the JavaScript level (`Course.js` lines
53-55): `gradePointMap[this.grade] * this.credits`.  For a grade outside
the map the lookup is `undefined` and `undefined * credits` is `NaN`,
embedded as `none`; no exception is thrown and no error value is
produced. -/
def calculateGradePointsJS (grade : String) (credits : ℕ) : Option ℚ :=
  (gradePointMapLookup grade).map (fun p => p * (credits : ℚ))

/-- The grade membership check of `validateCourse`
(`src/server/routes/courses.js` lines 38-42):
`['A','B','C','D','F'].includes(data.grade)`. -/
def validGradeStr (grade : String) : Bool :=
  (["A", "B", "C", "D", "F"] : List String).contains grade

/-- The `gradePoints` object of the frontend prototype's `calculateGPA`
(`App.jsx`, shipped inside `src/src/components/GpaAnalytics.jsx` lines
379-391), with the finer plus/minus scale, under JavaScript member
access. -/
def clientGradeScale (grade : String) : Option ℚ :=
  if grade = "A" then some 4
  else if grade = "A-" then some (37 / 10)
  else if grade = "B+" then some (33 / 10)
  else if grade = "B" then some 3
  else if grade = "B-" then some (27 / 10)
  else if grade = "C+" then some (23 / 10)
  else if grade = "C" then some 2
  else if grade = "C-" then some (17 / 10)
  else if grade = "D+" then some (13 / 10)
  else if grade = "D" then some 1
  else if grade = "F" then some 0
  else none

/-- Embedding of `const points = gradePoints[course.grade] || 0` (line 397): a
missing key's `undefined` is silently replaced by `0` (and `F`'s `0.0`
is also falsy, giving `0` again). -/
def clientPoints (grade : String) : ℚ :=
  (clientGradeScale grade).getD 0

/-- A course as the frontend prototype holds it: a free-form grade
string and numeric credits. -/
structure ClientCourse where
  grade : String
  credits : ℚ
deriving DecidableEq

/-- The frontend prototype's `calculateGPA` (lines 373-405): 0 for an
empty list, otherwise accumulate `points * credits` and `credits` and
divide, guarding only against `totalCredits > 0`. -/
def clientCalculateGPA (courses : List ClientCourse) : ℚ :=
  if courses.length = 0 then 0
  else
    let totalPoints := courses.foldl (fun s c => s + clientPoints c.grade * c.credits) 0
    let totalCredits := courses.foldl (fun s c => s + c.credits) 0
    if 0 < totalCredits then jsToFixed2 (totalPoints / totalCredits) else 0

-- ============ database-level model ============

/-- A persisted course document of the Course collection
(`src/server/models/Course.js`): identifier, owning user, owning
semester, trimmed name, validated credits and grade. -/
structure DBCourse where
  id : ℕ
  userId : ℕ
  semesterId : ℕ
  name : String
  credits : ℕ
  grade : Grade
deriving DecidableEq

/-- Projection of a course document to the pure aggregation view. -/
def DBCourse.toCourse (c : DBCourse) : Course := Course.mk c.credits c.grade

/-- A persisted semester document of the Semester collection
(`src/server/models/Semester.js` lines 3-37): owning user, descriptive
fields, the array of owned course ids, and the cached `gpa` field. -/
structure DBSemester where
  id : ℕ
  userId : ℕ
  semesterNumber : ℕ
  year : ℕ
  semesterType : String
  courses : List ℕ
  gpa : ℚ
deriving DecidableEq

/-- The database state the request handlers act on: the two collections
relevant to the claims. -/
structure DB where
  courses : List DBCourse
  semesters : List DBSemester
deriving DecidableEq

/-- Modelled query `Course.find({ userId })` as issued by the primary
courses router (`src/server/routes/courses.js` line 496). -/
def findCoursesByUser (db : DB) (uid : ℕ) : List DBCourse :=
  db.courses.filter (fun c => c.userId == uid)

/-- Scoped `GET /courses/stats/summary` of the primary courses router:
the statistics are computed over the requesting user's own courses. -/
def statsSummaryScoped (db : DB) (uid : ℕ) : StatsSummary :=
  statsSummary ((findCoursesByUser db uid).map DBCourse.toCourse)

/-- Response data of the variant courses router's summary endpoint
(`src/unnamed/part_004` lines 223-259). -/
structure StatsLite where
  totalCourses : ℕ
  totalCredits : ℕ
  gpa : ℚ
deriving DecidableEq

/-- Unscoped `GET /courses/stats/summary` of the variant courses router
(`src/unnamed/part_004` lines 223-259): it issues `Course.find()` with
no user filter, so it aggregates over every course of every user; note
it also has no `totalCredits` guard before dividing. -/
def statsSummaryAllUsers (db : DB) : StatsLite :=
  if db.courses.length = 0 then
    { totalCourses := 0, totalCredits := 0, gpa := 0 }
  else
    let totalCredits : ℕ := db.courses.foldl (fun s c => s + c.credits) 0
    let totalGradePoints :=
      db.courses.foldl (fun s c => s + calculateGradePoints c.toCourse) 0
    { totalCourses := db.courses.length,
      totalCredits := totalCredits,
      gpa := jsToFixed2 (totalGradePoints / (totalCredits : ℚ)) }

/-- The field validation of `validateCourse`
(`src/server/routes/courses.js` lines 16-48) on the typed inputs: name
present, nonempty after trim, at most 100 characters; credits an integer
in `[1,4]` (grade validity is carried by the `Grade` type). -/
def validateCourseInput (name : String) (credits : ℕ) : Bool :=
  (!(name == "")) && (!(name.trim == "")) && (name.length ≤ 100) &&
    (1 ≤ credits) && (credits ≤ 4)

/-- Handler `POST /courses` (`src/server/routes/courses.js` lines 213-259):
validate, then save a new course document owned by the authenticated
user; on validation failure respond 400 and write nothing. -/
def createCourse (db : DB) (uid newId semesterId : ℕ) (name : String)
    (credits : ℕ) (grade : Grade) : DB :=
  if validateCourseInput name credits then
    { db with courses :=
        db.courses ++ [DBCourse.mk newId uid semesterId name.trim credits grade] }
  else db

/-- Handler `PUT /courses/:id` (`src/server/routes/courses.js` lines 288-362):
validate the provided fields (missing ones replaced by the placeholder
defaults `"temp"` / `1` the source uses), fetch the course, check
ownership, then `$set` the provided fields on the matching document. -/
def updateCourse (db : DB) (uid cid : ℕ) (newName : Option String)
    (newCredits : Option ℕ) (newGrade : Option Grade) : DB :=
  let updName := newName.map String.trim
  if validateCourseInput (updName.getD "temp") (newCredits.getD 1) then
    match db.courses.find? (fun c => c.id == cid) with
    | none => db
    | some c =>
        if c.userId = uid then
          { db with courses := db.courses.map (fun d =>
              if d.id = cid then
                { d with
                  name := updName.getD d.name,
                  credits := newCredits.getD d.credits,
                  grade := newGrade.getD d.grade }
              else d) }
        else db
  else db

/-- Handler `DELETE /courses/:id` of the primary courses router
(`src/server/routes/courses.js` lines 384-429): fetch the course, check
ownership, then `findByIdAndDelete`. -/
def deleteCourse (db : DB) (uid cid : ℕ) : DB :=
  match db.courses.find? (fun c => c.id == cid) with
  | none => db
  | some c =>
      if c.userId = uid then
        { db with courses := db.courses.filter (fun d => !(d.id == cid)) }
      else db

/-- Handler `DELETE /courses/:id` of the variant courses router
(`src/unnamed/part_004` lines 191-219): `findByIdAndDelete` with no
ownership check — any authenticated user deletes any course by id. -/
def deleteCourseAny (db : DB) (cid : ℕ) : DB :=
  match db.courses.find? (fun c => c.id == cid) with
  | none => db
  | some _ => { db with courses := db.courses.filter (fun d => !(d.id == cid)) }

/-- Mongoose `populate("courses")` on a semester document: each stored
course id is resolved against the Course collection, missing references
being dropped. -/
def populateSemesterCourses (db : DB) (s : DBSemester) : List Course :=
  s.courses.filterMap (fun cid =>
    (db.courses.find? (fun c => c.id == cid)).map DBCourse.toCourse)

/-- Handler `PATCH /semesters/:id/calculate-gpa`
(`src/server/routes/semesters.js` lines 147-190): fetch the semester,
check ownership, recompute its GPA from its populated courses via
`calculateSemesterGPA`, store it in the `gpa` field and save. -/
def patchCalculateGpa (db : DB) (uid sid : ℕ) : DB :=
  match db.semesters.find? (fun s => s.id == sid) with
  | none => db
  | some s =>
      if s.userId = uid then
        let g := calculateSemesterGPA (populateSemesterCourses db s)
        { db with semesters := db.semesters.map (fun t =>
            if t.id = sid then { t with gpa := g } else t) }
      else db

/-- The five letter grades, in the order the response object lists its
keys. -/
def allGrades : List Grade := [Grade.A, Grade.B, Grade.C, Grade.D, Grade.F]

/-- Sum of a distribution's values over its five keys. -/
def sumOverGrades (d : Grade → ℕ) : ℕ := (allGrades.map d).sum

-- ============ basic fold lemmas ============

theorem foldl_credits (l : List Course) (init : ℚ) :
    l.foldl (fun sum c => sum + (c.credits : ℚ)) init =
      init + (l.map (fun c => (c.credits : ℚ))).sum := by
  induction l generalizing init with
  | nil => simp
  | cons c t ih => simp [List.foldl_cons, ih, add_assoc]

theorem foldl_points (l : List Course) (init : ℚ) :
    l.foldl (fun sum c => sum + calculateGradePoints c) init =
      init + (l.map calculateGradePoints).sum := by
  induction l generalizing init with
  | nil => simp
  | cons c t ih => simp [List.foldl_cons, ih, add_assoc]

theorem calculateGradePoints_eq_weightedPoints (c : Course) :
    calculateGradePoints c = weightedPoints c.grade c.credits := by
  cases c with
  | mk cr g => cases g <;> simp [calculateGradePoints, weightedPoints, gradePointMap, scale]

theorem round2_eq_round2Spec (x : ℚ) : round2 x = round2Spec x := by
  simp [round2, round2Spec, round_eq]

-- ============ binary64 rounding lemmas ============

theorem int_log_eq {q : ℚ} {n : ℤ} (h1 : (2 : ℚ) ^ n ≤ q) (h2 : q < (2 : ℚ) ^ (n + 1)) :
    Int.log 2 q = n := by
  have hq : 0 < q := lt_of_lt_of_le (zpow_pos (by norm_num) n) h1
  have h1n : ((2 : ℕ) : ℚ) ^ n ≤ q := by exact_mod_cast h1
  have h2n : q < ((2 : ℕ) : ℚ) ^ (n + 1) := by exact_mod_cast h2
  have hle : n ≤ Int.log 2 q := (Int.zpow_le_iff_le_log (by norm_num) hq).mp h1n
  have hlt : Int.log 2 q < n + 1 := (Int.lt_zpow_iff_log_lt (by norm_num) hq).mp h2n
  omega

theorem roundB64_eval (q : ℚ) (n m : ℤ) (h1 : (2 : ℚ) ^ n ≤ q) (h2 : q < (2 : ℚ) ^ (n + 1))
    (h3 : roundNE (q * 2 ^ (52 - n)) = m) :
    roundB64 q = (m : ℚ) * 2 ^ (n - 52) := by
  have hq : 0 < q := lt_of_lt_of_le (zpow_pos (by norm_num) n) h1
  unfold roundB64 roundB64Pos
  rw [if_pos hq]
  dsimp only
  rw [int_log_eq h1 h2, show -(n - 52) = 52 - n by ring, h3]

theorem roundNE_err (s : ℚ) : |((roundNE s : ℤ) : ℚ) - s| ≤ 1 / 2 := by
  have hfl : ((⌊s⌋ : ℤ) : ℚ) ≤ s := Int.floor_le s
  have hfu : s < ((⌊s⌋ : ℤ) : ℚ) + 1 := Int.lt_floor_add_one s
  unfold roundNE
  split_ifs with hc1 hc2 hc3 <;>
    · rw [abs_le]
      push_cast
      constructor <;> linarith

theorem roundB64Pos_err {q : ℚ} (hq : 0 < q) : |roundB64Pos q - q| ≤ q / 2 ^ 53 := by
  have h2 : (2 : ℚ) ≠ 0 := by norm_num
  have h2e : (0 : ℚ) < 2 ^ (Int.log 2 q - 52) := zpow_pos (by norm_num) _
  have hqs : roundB64Pos q - q =
      (((roundNE (q * 2 ^ (-(Int.log 2 q - 52))) : ℤ) : ℚ) - q * 2 ^ (-(Int.log 2 q - 52))) *
        2 ^ (Int.log 2 q - 52) := by
    unfold roundB64Pos
    dsimp only
    rw [sub_mul, mul_assoc, ← zpow_add₀ h2]
    simp
  have hkey : ((2 : ℚ)) ^ (Int.log 2 q) ≤ q := by
    have h := Int.zpow_log_le_self (b := 2) (R := ℚ) (by norm_num) hq
    exact_mod_cast h
  have hmain : |roundB64Pos q - q| ≤ 1 / 2 * 2 ^ (Int.log 2 q - 52) := by
    rw [hqs, abs_mul, abs_of_pos h2e]
    exact mul_le_mul_of_nonneg_right (roundNE_err _) h2e.le
  have hpow : (1 : ℚ) / 2 * 2 ^ (Int.log 2 q - 52) = 2 ^ (Int.log 2 q) / 2 ^ (53 : ℕ) := by
    have e1 : (1 : ℚ) / 2 = (2 : ℚ) ^ (-1 : ℤ) := by norm_num
    have e2 : ((2 : ℚ) ^ (53 : ℕ)) = (2 : ℚ) ^ (53 : ℤ) := (zpow_natCast (2 : ℚ) 53).symm
    rw [e1, e2, ← zpow_add₀ h2, div_eq_mul_inv, ← zpow_neg, ← zpow_add₀ h2]
    congr 1
    omega
  have hlast : (2 : ℚ) ^ (Int.log 2 q) / 2 ^ (53 : ℕ) ≤ q / 2 ^ 53 := by
    have h53 : (0 : ℚ) < 2 ^ (53 : ℕ) := by positivity
    exact (div_le_div_right h53).mpr hkey
  calc |roundB64Pos q - q| ≤ 1 / 2 * 2 ^ (Int.log 2 q - 52) := hmain
    _ = 2 ^ (Int.log 2 q) / 2 ^ (53 : ℕ) := hpow
    _ ≤ q / 2 ^ 53 := hlast

theorem roundB64_err {q : ℚ} (hq : 0 ≤ q) : |roundB64 q - q| ≤ q / 2 ^ 53 := by
  rcases eq_or_lt_of_le hq with h | h
  · rw [← h]
    norm_num [roundB64]
  · unfold roundB64
    rw [if_pos h]
    exact roundB64Pos_err h

theorem roundB64_nonneg {q : ℚ} (hq : 0 ≤ q) : 0 ≤ roundB64 q := by
  have h := (abs_le.mp (roundB64_err hq)).1
  have h2 : q / 2 ^ 53 ≤ q := div_le_self hq (by norm_num)
  linarith

theorem roundB64_lt_bound {q : ℚ} (hq0 : 0 ≤ q) (hq : q ≤ 4) : roundB64 q < 801 / 200 := by
  have h := (abs_le.mp (roundB64_err hq0)).2
  have h2 : q / 2 ^ 53 ≤ 4 / 2 ^ 53 := by
    have h53 : (0 : ℚ) < 2 ^ (53 : ℕ) := by positivity
    exact (div_le_div_right h53).mpr hq
  have h3 : (4 : ℚ) / 2 ^ 53 < 1 / 200 := by norm_num
  linarith

theorem jsToFixed2_tie : jsToFixed2 (81 / 40) = 101 / 50 := by
  have h3 : roundNE ((81 / 40 : ℚ) * 2 ^ ((52 : ℤ) - 1)) = 4559894622712627 := by
    norm_num [roundNE]
  have hb := roundB64_eval (81 / 40) 1 4559894622712627 (by norm_num) (by norm_num) h3
  unfold jsToFixed2 round2
  rw [hb]
  norm_num

theorem jsToFixed2_sixteen_fifths : jsToFixed2 (16 / 5) = 16 / 5 := by
  have h3 : roundNE ((16 / 5 : ℚ) * 2 ^ ((52 : ℤ) - 1)) = 7205759403792794 := by
    norm_num [roundNE]
  have hb := roundB64_eval (16 / 5) 1 7205759403792794 (by norm_num) (by norm_num) h3
  unfold jsToFixed2 round2
  rw [hb]
  norm_num

theorem jsToFixed2_four : jsToFixed2 4 = 4 := by
  have h3 : roundNE ((4 : ℚ) * 2 ^ ((52 : ℤ) - 2)) = 4503599627370496 := by
    norm_num [roundNE]
  have hb := roundB64_eval 4 2 4503599627370496 (by norm_num) (by norm_num) h3
  unfold jsToFixed2 round2
  rw [hb]
  norm_num

theorem jsToFixed2_zero : jsToFixed2 0 = 0 := by
  norm_num [jsToFixed2, roundB64, round2]


theorem foldl_add_comp {α M : Type} [AddCommMonoid M] (f : α → M) (l : List α) (init : M) :
    l.foldl (fun s x => s + f x) init = init + (l.map f).sum := by
  induction l generalizing init with
  | nil => simp
  | cons a t ih => simp [List.foldl_cons, ih, add_assoc]

theorem foldl_credits_nested (ls : List (List Course)) (init : ℚ) :
    ls.foldl (fun sum sem => sem.foldl (fun s c => s + (c.credits : ℚ)) sum) init =
      init + ((ls.flatten).map (fun c => (c.credits : ℚ))).sum := by
  have h1 : (fun (sum : ℚ) (sem : List Course) =>
        sem.foldl (fun s c => s + (c.credits : ℚ)) sum) =
      (fun sum sem => sum + (sem.map (fun c => (c.credits : ℚ))).sum) := by
    funext sum sem
    exact foldl_credits sem sum
  rw [h1, foldl_add_comp (fun sem : List Course => (sem.map (fun c => (c.credits : ℚ))).sum)]
  congr 1
  simp [List.map_flatten, List.sum_flatten, List.map_map, Function.comp_def]

theorem foldl_points_nested (ls : List (List Course)) (init : ℚ) :
    ls.foldl (fun sum sem => sem.foldl (fun s c => s + calculateGradePoints c) sum) init =
      init + ((ls.flatten).map calculateGradePoints).sum := by
  have h1 : (fun (sum : ℚ) (sem : List Course) =>
        sem.foldl (fun s c => s + calculateGradePoints c) sum) =
      (fun sum sem => sum + (sem.map calculateGradePoints).sum) := by
    funext sum sem
    exact foldl_points sem sum
  rw [h1, foldl_add_comp (fun sem : List Course => (sem.map calculateGradePoints).sum)]
  congr 1
  simp [List.map_flatten, List.sum_flatten, List.map_map, Function.comp_def]

theorem credits_sum_pos (l : List Course) (hv : ∀ c ∈ l, validCourse c) (hne : l ≠ []) :
    0 < (l.map (fun c => (c.credits : ℚ))).sum := by
  cases l with
  | nil => exact absurd rfl hne
  | cons c t =>
      have h1 : (1 : ℚ) ≤ (c.credits : ℚ) := by
        have := (hv c (by simp)).1
        exact_mod_cast this
      have h2 : 0 ≤ ((t.map (fun c => (c.credits : ℚ))).sum) := by
        apply List.sum_nonneg
        intro x hx
        simp only [List.mem_map] at hx
        obtain ⟨d, _, rfl⟩ := hx
        positivity
      simp only [List.map_cons, List.sum_cons]
      linarith

-- ============ distribution and bound lemmas ============

theorem sumOverGrades_bumpCount (d : Grade → ℕ) (g : Grade) :
    sumOverGrades (bumpCount d g) = sumOverGrades d + 1 := by
  cases g <;> simp [sumOverGrades, allGrades, bumpCount] <;> omega

theorem sumOverGrades_bumpCredits (d : Grade → ℕ) (g : Grade) (cr : ℕ) :
    sumOverGrades (bumpCredits d g cr) = sumOverGrades d + cr := by
  cases g <;> simp [sumOverGrades, allGrades, bumpCredits] <;> omega

theorem sumOverGrades_zero : sumOverGrades (fun _ => 0) = 0 := by
  simp [sumOverGrades, allGrades]

theorem gradeDistribution_foldl_sum (courses : List Course) :
    ∀ d : Grade → ℕ,
      sumOverGrades (courses.foldl (fun d c => bumpCount d c.grade) d) =
        sumOverGrades d + courses.length := by
  induction courses with
  | nil => intro d; simp
  | cons c t ih =>
      intro d
      simp only [List.foldl_cons, ih, sumOverGrades_bumpCount, List.length_cons]
      omega

theorem creditDistribution_foldl_sum (courses : List Course) :
    ∀ d : Grade → ℕ,
      sumOverGrades (courses.foldl (fun d c => bumpCredits d c.grade c.credits) d) =
        sumOverGrades d + (courses.map (fun c => c.credits)).sum := by
  induction courses with
  | nil => intro d; simp
  | cons c t ih =>
      intro d
      simp only [List.foldl_cons, ih, sumOverGrades_bumpCredits, List.map_cons, List.sum_cons]
      omega

theorem gradePointMap_nonneg (g : Grade) : 0 ≤ gradePointMap g := by
  cases g <;> norm_num [gradePointMap]

theorem gradePointMap_le_four (g : Grade) : gradePointMap g ≤ 4 := by
  cases g <;> norm_num [gradePointMap]

theorem gradeScale_eq_gradePointMap (g : Grade) : gradeScale g = gradePointMap g := by
  cases g <;> rfl

theorem points_sum_nonneg (l : List Course) : 0 ≤ (l.map calculateGradePoints).sum := by
  apply List.sum_nonneg
  intro x hx
  simp only [List.mem_map] at hx
  obtain ⟨c, _, rfl⟩ := hx
  exact mul_nonneg (gradePointMap_nonneg c.grade) (by positivity)

theorem points_sum_le_four_credits (l : List Course) :
    (l.map calculateGradePoints).sum ≤ 4 * (l.map (fun c => (c.credits : ℚ))).sum := by
  rw [← List.sum_map_mul_left]
  apply List.sum_le_sum
  intro c _
  exact mul_le_mul_of_nonneg_right (gradePointMap_le_four c.grade) (by positivity)

theorem credits_sum_nonneg (l : List Course) :
    0 ≤ (l.map (fun c => (c.credits : ℚ))).sum := by
  apply List.sum_nonneg
  intro x hx
  simp only [List.mem_map] at hx
  obtain ⟨c, _, rfl⟩ := hx
  positivity

theorem round2_nonneg (x : ℚ) (hx : 0 ≤ x) : 0 ≤ round2 x := by
  unfold round2
  have h : (0 : ℤ) ≤ ⌊x * 100 + 1 / 2⌋ := by
    apply Int.le_floor.mpr
    push_cast
    linarith
  have h2 : (0 : ℚ) ≤ ((⌊x * 100 + 1 / 2⌋ : ℤ) : ℚ) := by exact_mod_cast h
  positivity

theorem round2_le_four (x : ℚ) (hx : x < 801 / 200) : round2 x ≤ 4 := by
  unfold round2
  have h : ⌊x * 100 + 1 / 2⌋ < 401 := by
    rw [Int.floor_lt]
    push_cast
    linarith
  have h2 : ((⌊x * 100 + 1 / 2⌋ : ℤ) : ℚ) ≤ 400 := by
    exact_mod_cast (by omega : ⌊x * 100 + 1 / 2⌋ ≤ 400)
  rw [div_le_iff (by norm_num : (0 : ℚ) < 100)]
  linarith

theorem gpa_quotient_bounds (P C : ℚ) (hC : 0 < C) (hP0 : 0 ≤ P) (hP4 : P ≤ 4 * C) :
    0 ≤ jsToFixed2 (P / C) ∧ jsToFixed2 (P / C) ≤ 4 := by
  have hq0 : 0 ≤ P / C := div_nonneg hP0 hC.le
  have hq4 : P / C ≤ 4 := (div_le_iff hC).mpr (by linarith)
  have hd0 : 0 ≤ roundB64 (P / C) := roundB64_nonneg hq0
  have hd4 : roundB64 (P / C) < 801 / 200 := roundB64_lt_bound hq0 hq4
  exact ⟨round2_nonneg _ hd0, round2_le_four _ hd4⟩

-- ============ claim theorems: pure GPA arithmetic ============

/-- C1 counterexample: on the valid 11-course list whose exact quotient
is 81 / 40 = 2.025, the program (which divides in binary64 and only then
applies `toFixed(2)`) returns 2.02, while rounding the exact quotient
half-away-from-zero — the claim's `semesterGPASpec` — gives 2.03. -/
theorem C1_rounding_counterexample :
    (∀ c ∈ tieCourses, validCourse c) ∧
    calculateSemesterGPA tieCourses = 101 / 50 ∧
    semesterGPASpec tieCourses = 203 / 100 ∧
    calculateSemesterGPA tieCourses ≠ semesterGPASpec tieCourses := by
  have h1 : calculateSemesterGPA tieCourses = 101 / 50 := by
    have he : calculateSemesterGPA tieCourses = jsToFixed2 (81 / 40) := by
      norm_num [calculateSemesterGPA, tieCourses, calculateGradePoints, gradePointMap]
    rw [he, jsToFixed2_tie]
  have h2 : semesterGPASpec tieCourses = 203 / 100 := by
    norm_num [semesterGPASpec, tieCourses, weightedPoints, scale, round2Spec, round_eq] <;>
      simp
  refine ⟨by decide, h1, h2, ?_⟩
  rw [h1, h2]
  norm_num

/-- C1 (amended): on every course list with valid grades and credits,
`calculateSemesterGPA` returns 0 for the empty list and otherwise the
quotient of total weighted points by total credits, evaluated as a
binary64 division and rounded half-away-from-zero to two decimal places
(ECMA `toFixed` of the double quotient) — i.e. it agrees with
`semesterGPAAmended`. -/
theorem C1_semesterGPA_matches_amended (courses : List Course)
    (hv : ∀ c ∈ courses, validCourse c) :
    calculateSemesterGPA courses = semesterGPAAmended courses := by
  cases courses with
  | nil => simp [calculateSemesterGPA, semesterGPAAmended]
  | cons c t =>
      simp only [calculateSemesterGPA, semesterGPAAmended, List.length_cons, jsToFixed2,
        round2_eq_round2Spec, foldl_credits, foldl_points, zero_add]
      have hmap : (List.map calculateGradePoints (c :: t)) =
          (List.map (fun d => weightedPoints d.grade d.credits) (c :: t)) := by
        apply List.map_congr_left
        intro d _
        exact calculateGradePoints_eq_weightedPoints d
      simp [hmap]

/-- C1 witness: the end-to-end example of spec §8 — courses
(A,4), (B,3), (C,3). -/
theorem C1_semesterGPA_matches_amended_witness :
    (∀ c ∈ [Course.mk 4 Grade.A, Course.mk 3 Grade.B, Course.mk 3 Grade.C], validCourse c) ∧
      calculateSemesterGPA [Course.mk 4 Grade.A, Course.mk 3 Grade.B, Course.mk 3 Grade.C] =
        semesterGPAAmended [Course.mk 4 Grade.A, Course.mk 3 Grade.B, Course.mk 3 Grade.C] :=
  ⟨by decide, C1_semesterGPA_matches_amended _ (by decide)⟩

/-- C2 counterexample: one semester holding the 81 / 40 tie pool — the
program's CGPA is 2.02 while the claim's exact-rational
half-away-from-zero rounding (`cgpaSpec`) gives 2.03. -/
theorem C2_rounding_counterexample :
    (∀ sem ∈ [tieCourses], ∀ c ∈ sem, validCourse c) ∧
    calculateCGPA [tieCourses] = 101 / 50 ∧
    cgpaSpec [tieCourses] = 203 / 100 ∧
    calculateCGPA [tieCourses] ≠ cgpaSpec [tieCourses] := by
  have h1 : calculateCGPA [tieCourses] = 101 / 50 := by
    have he : calculateCGPA [tieCourses] = jsToFixed2 (81 / 40) := by
      norm_num [calculateCGPA, tieCourses, calculateGradePoints, gradePointMap]
    rw [he, jsToFixed2_tie]
  have h2 : cgpaSpec [tieCourses] = 203 / 100 := by
    norm_num [cgpaSpec, tieCourses, weightedPoints, scale, round2Spec, round_eq] <;>
      simp
  refine ⟨by decide, h1, h2, ?_⟩
  rw [h1, h2]
  norm_num

/-- C2 (amended): on every semester list with valid courses,
`calculateCGPA` pools every course of every semester, accumulates
credits and weighted points over the whole pool, and returns the pooled
quotient evaluated as a binary64 division and rounded to two decimal
places by `toFixed`; zero semesters or zero pooled courses give 0 (the
function is total into `ℚ`, so no `NaN` and no exception) — i.e. it
agrees with `cgpaAmended`. -/
theorem C2_cgpa_matches_amended (semesters : List (List Course))
    (hv : ∀ sem ∈ semesters, ∀ c ∈ sem, validCourse c) :
    calculateCGPA semesters = cgpaAmended semesters := by
  by_cases hlen : semesters = []
  · subst hlen
    simp [calculateCGPA, cgpaAmended]
  · have hlen' : ¬ semesters.length = 0 := by
      simpa [List.length_eq_zero] using hlen
    unfold calculateCGPA cgpaAmended
    rw [if_neg hlen', foldl_credits_nested, foldl_points_nested, zero_add, zero_add]
    dsimp only
    by_cases hpool : semesters.flatten = []
    · simp [hpool]
    · have hvpool : ∀ c ∈ semesters.flatten, validCourse c := by
        intro c hc
        rw [List.mem_flatten] at hc
        obtain ⟨sem, hsem2, hcsem⟩ := hc
        exact hv sem hsem2 c hcsem
      have hpos := credits_sum_pos _ hvpool hpool
      have hmap : ((semesters.flatten).map calculateGradePoints) =
          ((semesters.flatten).map (fun d => weightedPoints d.grade d.credits)) := by
        apply List.map_congr_left
        intro d _
        exact calculateGradePoints_eq_weightedPoints d
      rw [if_neg (ne_of_gt hpos), if_neg hpool, hmap]
      unfold jsToFixed2
      rw [round2_eq_round2Spec]

/-- C2 witness: two semesters — one with an A (4 credits) and a B
(3 credits), one empty. -/
theorem C2_cgpa_matches_amended_witness :
    (∀ sem ∈ [[Course.mk 4 Grade.A, Course.mk 3 Grade.B], []],
        ∀ c ∈ sem, validCourse c) ∧
      calculateCGPA [[Course.mk 4 Grade.A, Course.mk 3 Grade.B], []] =
        cgpaAmended [[Course.mk 4 Grade.A, Course.mk 3 Grade.B], []] :=
  ⟨by decide, C2_cgpa_matches_amended _ (by decide)⟩

/-- C3: CGPA is not the arithmetic mean of per-semester GPAs: with one
semester holding a single 4-credit A and another holding a single
1-credit F, `calculateCGPA` returns 3.20 while the mean of the two
`calculateSemesterGPA` values is 2.00. -/
theorem C3_cgpa_not_mean_of_semester_gpas :
    calculateCGPA [[Course.mk 4 Grade.A], [Course.mk 1 Grade.F]] = 32 / 10 ∧
      (calculateSemesterGPA [Course.mk 4 Grade.A] +
        calculateSemesterGPA [Course.mk 1 Grade.F]) / 2 = 2 ∧
      calculateCGPA [[Course.mk 4 Grade.A], [Course.mk 1 Grade.F]] ≠
        (calculateSemesterGPA [Course.mk 4 Grade.A] +
          calculateSemesterGPA [Course.mk 1 Grade.F]) / 2 := by
  have hc : calculateCGPA [[Course.mk 4 Grade.A], [Course.mk 1 Grade.F]] =
      jsToFixed2 (16 / 5) := by
    norm_num [calculateCGPA, calculateGradePoints, gradePointMap]
  have hA : calculateSemesterGPA [Course.mk 4 Grade.A] = jsToFixed2 4 := by
    norm_num [calculateSemesterGPA, calculateGradePoints, gradePointMap]
  have hF : calculateSemesterGPA [Course.mk 1 Grade.F] = jsToFixed2 0 := by
    norm_num [calculateSemesterGPA, calculateGradePoints, gradePointMap]
  refine ⟨?_, ?_, ?_⟩
  · rw [hc, jsToFixed2_sixteen_fifths]
    norm_num
  · rw [hA, hF, jsToFixed2_four, jsToFixed2_zero]
    norm_num
  · rw [hc, hA, hF, jsToFixed2_sixteen_fifths, jsToFixed2_four, jsToFixed2_zero]
    norm_num

/-- C4: for every grade `g` and integer credits `c ∈ [1,4]`, the
backend's `calculateGradePoints` equals the spec's `scale[g] * c`
exactly, with no rounding. -/
theorem C4_gradePoints_exact (g : Grade) (c : ℕ) (h1 : 1 ≤ c) (h4 : c ≤ 4) :
    calculateGradePoints (Course.mk c g) = scale g * (c : ℚ) := by
  cases g <;> simp [calculateGradePoints, gradePointMap, scale]

/-- C4 witness: grade B with 3 credits gives exactly 9 points. -/
theorem C4_gradePoints_exact_witness :
    1 ≤ 3 ∧ 3 ≤ 4 ∧ calculateGradePoints (Course.mk 3 Grade.B) = scale Grade.B * (3 : ℚ) :=
  ⟨by decide, by decide, C4_gradePoints_exact Grade.B 3 (by decide) (by decide)⟩

/-- C6: `getPerformanceLevel` agrees with the spec's
descending-threshold first-match table everywhere; gpa exactly 3.5 is
"Excellent", 3.49 is "Good", exactly 2.0 is "Fair", 1.99 is "Needs
Improvement"; the summary of an empty course list reports "N/A"; on a
nonempty course list the summary's `performanceLevel` is
`getPerformanceLevel` of the summary's `gpa`. -/
theorem C6_performanceLevel :
    (∀ x : ℚ, getPerformanceLevel x = performanceLevelSpec x) ∧
    getPerformanceLevel (7 / 2) = "Excellent" ∧
    getPerformanceLevel (349 / 100) = "Good" ∧
    getPerformanceLevel 2 = "Fair" ∧
    getPerformanceLevel (199 / 100) = "Needs Improvement" ∧
    (statsSummary []).performanceLevel = "N/A" ∧
    (∀ courses : List Course, courses ≠ [] →
      (statsSummary courses).performanceLevel =
        getPerformanceLevel ((statsSummary courses).gpa)) := by
  refine ⟨?_, by norm_num [getPerformanceLevel], by norm_num [getPerformanceLevel],
    by norm_num [getPerformanceLevel], by norm_num [getPerformanceLevel], rfl, ?_⟩
  · intro x
    by_cases h1 : (7 : ℚ) / 2 ≤ x
    · simp [getPerformanceLevel, performanceLevelSpec, performanceThresholds, h1, ge_iff_le]
    · by_cases h2 : (3 : ℚ) ≤ x
      · simp [getPerformanceLevel, performanceLevelSpec, performanceThresholds, h1, h2,
          ge_iff_le]
      · by_cases h3 : (5 : ℚ) / 2 ≤ x
        · simp [getPerformanceLevel, performanceLevelSpec, performanceThresholds, h1, h2, h3,
            ge_iff_le]
        · by_cases h4 : (2 : ℚ) ≤ x
          · simp [getPerformanceLevel, performanceLevelSpec, performanceThresholds, h1, h2, h3,
              h4, ge_iff_le]
          · simp [getPerformanceLevel, performanceLevelSpec, performanceThresholds, h1, h2, h3,
              h4, ge_iff_le]
  · intro courses hne
    have hlen : ¬ courses.length = 0 := by simpa [List.length_eq_zero] using hne
    simp [statsSummary, hlen]

/-- C6 witness: for the singleton list with one 4-credit A course, the
summary's performance label is `getPerformanceLevel` of its gpa. -/
theorem C6_performanceLevel_witness :
    [Course.mk 4 Grade.A] ≠ ([] : List Course) ∧
      (statsSummary [Course.mk 4 Grade.A]).performanceLevel =
        getPerformanceLevel ((statsSummary [Course.mk 4 Grade.A]).gpa) :=
  ⟨by decide, C6_performanceLevel.2.2.2.2.2.2 [Course.mk 4 Grade.A] (by decide)⟩

/-- C7 counterexample: the `gradeDistribution` object the summary
endpoint actually returns carries a sixth `passRate` entry alongside the
five letter-grade counts, so for a single A course the values of the
returned object sum to 1 + 100 = 101, not to the number of courses. -/
theorem C7_passRate_counterexample :
    (statsSummary [Course.mk 4 Grade.A]).gradeDistribution.passRate = 100 ∧
    ((sumOverGrades ((statsSummary [Course.mk 4 Grade.A]).gradeDistribution.counts) : ℤ) +
        (statsSummary [Course.mk 4 Grade.A]).gradeDistribution.passRate ≠
      ([Course.mk 4 Grade.A].length : ℤ)) := by
  have hF : gradeDistributionOf [Course.mk 4 Grade.A] Grade.F = 0 := by decide
  have hp : (statsSummary [Course.mk 4 Grade.A]).gradeDistribution.passRate = 100 := by
    norm_num [statsSummary, hF, jsRound]
  have hcount :
      sumOverGrades ((statsSummary [Course.mk 4 Grade.A]).gradeDistribution.counts) = 1 := by
    decide
  refine ⟨hp, ?_⟩
  rw [hcount, hp]
  norm_num

/-- C7 (amended): for every course list, the summary's returned
`gradeDistribution` consists of the five letter-grade counts (each
defaulting to 0) plus a sixth `passRate` entry spread into the same
object; the five letter-grade counts sum to the number of courses, and
the `creditDistribution` — which has exactly the five letter-grade keys
— has values summing to the total credits of the list. -/
theorem C7_distribution_sums_amended (courses : List Course) :
    sumOverGrades ((statsSummary courses).gradeDistribution.counts) = courses.length ∧
      sumOverGrades ((statsSummary courses).creditDistribution) =
        (courses.map (fun c => c.credits)).sum := by
  by_cases hlen : courses.length = 0
  · have : courses = [] := List.length_eq_zero.mp hlen
    subst this
    exact ⟨sumOverGrades_zero, sumOverGrades_zero⟩
  · constructor
    · simp only [statsSummary, hlen, if_false, gradeDistributionOf]
      rw [gradeDistribution_foldl_sum, sumOverGrades_zero, Nat.zero_add]
    · simp only [statsSummary, hlen, if_false, creditDistributionOf]
      rw [creditDistribution_foldl_sum, sumOverGrades_zero, Nat.zero_add]

/-- C10: for every course list (and semester list) with valid grades and
credits, `calculateSemesterGPA`, `calculateCGPA` and the summary's `gpa`
all lie between 0 and 4 inclusive. -/
theorem C10_gpa_range :
    (∀ courses : List Course, (∀ c ∈ courses, validCourse c) →
      0 ≤ calculateSemesterGPA courses ∧ calculateSemesterGPA courses ≤ 4) ∧
    (∀ semesters : List (List Course), (∀ sem ∈ semesters, ∀ c ∈ sem, validCourse c) →
      0 ≤ calculateCGPA semesters ∧ calculateCGPA semesters ≤ 4) ∧
    (∀ courses : List Course, (∀ c ∈ courses, validCourse c) →
      0 ≤ (statsSummary courses).gpa ∧ (statsSummary courses).gpa ≤ 4) := by
  refine ⟨?_, ?_, ?_⟩
  · intro courses hv
    by_cases hlen : courses.length = 0
    · simp [calculateSemesterGPA, hlen]
    · have hne : courses ≠ [] := by simpa [← List.length_eq_zero] using hlen
      unfold calculateSemesterGPA
      rw [if_neg hlen, foldl_credits, foldl_points, zero_add, zero_add]
      exact gpa_quotient_bounds _ _ (credits_sum_pos courses hv hne)
        (points_sum_nonneg courses) (points_sum_le_four_credits courses)
  · intro semesters hv
    by_cases hlen : semesters.length = 0
    · simp [calculateCGPA, hlen]
    · unfold calculateCGPA
      rw [if_neg hlen, foldl_credits_nested, foldl_points_nested, zero_add, zero_add]
      dsimp only
      by_cases hc : ((semesters.flatten).map (fun c => (c.credits : ℚ))).sum = 0
      · rw [hc]
        norm_num
      · rw [if_neg hc]
        have hpos : 0 < ((semesters.flatten).map (fun c => (c.credits : ℚ))).sum :=
          lt_of_le_of_ne (credits_sum_nonneg _) (Ne.symm hc)
        exact gpa_quotient_bounds _ _ hpos (points_sum_nonneg _)
          (points_sum_le_four_credits _)
  · intro courses hv
    by_cases hlen : courses.length = 0
    · simp [statsSummary, hlen]
    · have hne : courses ≠ [] := by simpa [← List.length_eq_zero] using hlen
      simp only [statsSummary, hlen, if_false]
      have hcred : courses.foldl (fun s c => s + c.credits) 0 =
          (courses.map (fun c => c.credits)).sum := by
        rw [foldl_add_comp, Nat.zero_add]
      have hpts : courses.foldl (fun s c => s + gradeScale c.grade * (c.credits : ℚ)) 0 =
          (courses.map calculateGradePoints).sum := by
        rw [foldl_add_comp, zero_add]
        apply congrArg List.sum
        apply List.map_congr_left
        intro c _
        rw [gradeScale_eq_gradePointMap]
        rfl
      have hcredpos : 0 < (courses.map (fun c => c.credits)).sum := by
        cases courses with
        | nil => exact absurd rfl hne
        | cons c t =>
            have := (hv c (by simp)).1
            simp only [List.map_cons, List.sum_cons]
            omega
      have hcastsum : (((courses.map (fun c => c.credits)).sum : ℕ) : ℚ) =
          (courses.map (fun c => (c.credits : ℚ))).sum := by
        rw [Nat.cast_list_sum, List.map_map]
        rfl
      rw [hcred, hpts]
      have hpos' : 0 < ((courses.map (fun c => c.credits)).sum : ℕ) := hcredpos
      rw [if_pos hpos']
      have hposq : 0 < (((courses.map (fun c => c.credits)).sum : ℕ) : ℚ) := by
        exact_mod_cast hpos'
      rw [hcastsum] at hposq ⊢
      exact gpa_quotient_bounds _ _ hposq (points_sum_nonneg _)
        (points_sum_le_four_credits _)

/-- C5 counterexample: the out-of-scale grade "E" is rejected by
validation, but when it reaches a grade-point computation no error is
signalled: the frontend `calculateGPA` silently treats its point value
as 0 — a list with an "E" course computes the same GPA as the same list
with that course failed ("F") — and the backend `calculateGradePoints`
silently yields `NaN` (`none`), not an error. -/
theorem C5_counterexample :
    validGradeStr "E" = false ∧
    clientPoints "E" = 0 ∧
    clientCalculateGPA [ClientCourse.mk "E" 3, ClientCourse.mk "A" 1] =
      clientCalculateGPA [ClientCourse.mk "F" 3, ClientCourse.mk "A" 1] ∧
    calculateGradePointsJS "E" 3 = none := by
  refine ⟨by decide, by decide, ?_, by decide⟩
  simp [clientCalculateGPA, clientPoints, clientGradeScale, round2]

/-- C5 (amended): an input whose grade lies outside {A,B,C,D,F} is
rejected by `validateCourse` before persistence, but the grade-point
computations do not signal an error to their callers: the backend
`calculateGradePoints` evaluates to `NaN` (`undefined * credits`,
embedded `none`) which propagates silently, and the frontend prototype's
`calculateGPA` silently treats the point value of any grade outside its
own scale as 0 via `|| 0`. -/
theorem C5_no_error_signalled (g : String) (hg : validGradeStr g = false) :
    (∀ c : ℕ, calculateGradePointsJS g c = none) ∧
      (clientGradeScale g = none → clientPoints g = 0) := by
  have h5 : ¬ g = "A" ∧ ¬ g = "B" ∧ ¬ g = "C" ∧ ¬ g = "D" ∧ ¬ g = "F" := by
    simpa [validGradeStr] using hg
  refine ⟨?_, ?_⟩
  · intro c
    simp only [calculateGradePointsJS, gradePointMapLookup]
    rw [if_neg h5.1, if_neg h5.2.1, if_neg h5.2.2.1, if_neg h5.2.2.2.1, if_neg h5.2.2.2.2]
    rfl
  · intro hnone
    simp [clientPoints, hnone]

/-- C5 witness: the amended statement instantiated at grade "E" with 3
credits. -/
theorem C5_no_error_signalled_witness :
    validGradeStr "E" = false ∧ calculateGradePointsJS "E" 3 = none ∧
      clientPoints "E" = 0 :=
  ⟨by decide, (C5_no_error_signalled "E" (by decide)).1 3,
    (C5_no_error_signalled "E" (by decide)).2 (by decide)⟩

/-- C8 counterexample: the variant courses router's summary endpoint is
not scoped to the requesting user.  Two database states that differ only
in a course owned by user 2 (they agree exactly on user 1's courses)
give user 1 different summary statistics, refuting the claim that every
course operation acts only on the authenticated user's courses. -/
theorem C8_counterexample :
    ((DB.mk [DBCourse.mk 10 2 1 "Math" 4 Grade.A] []).courses.filter
        (fun c => c.userId == 1) =
      (DB.mk [] []).courses.filter (fun c => c.userId == 1)) ∧
    statsSummaryAllUsers (DB.mk [DBCourse.mk 10 2 1 "Math" 4 Grade.A] []) ≠
      statsSummaryAllUsers (DB.mk [] []) := by
  constructor
  · rfl
  · intro h
    have h2 := congrArg StatsLite.totalCourses h
    simp [statsSummaryAllUsers] at h2

/-- C8 (amended): the primary courses router is ownership-scoped — its
summary statistics for a user are identical on any two database states
agreeing on that user's courses, and its delete leaves the database
unchanged when the addressed course belongs to another user — but the
variant courses router of `src/unnamed/part_004` performs no ownership
scoping: its summary aggregates all users' courses and its delete
removes any course by id. -/
theorem C8_scoped_ops_respect_ownership :
    (∀ uid : ℕ, ∀ db1 db2 : DB,
      db1.courses.filter (fun c => c.userId == uid) =
          db2.courses.filter (fun c => c.userId == uid) →
        statsSummaryScoped db1 uid = statsSummaryScoped db2 uid) ∧
    (∀ db : DB, ∀ uid cid : ℕ, ∀ c : DBCourse,
      db.courses.find? (fun d => d.id == cid) = some c → c.userId ≠ uid →
        deleteCourse db uid cid = db) := by
  constructor
  · intro uid db1 db2 h
    unfold statsSummaryScoped findCoursesByUser
    rw [h]
  · intro db uid cid c hfind hnot
    unfold deleteCourse
    rw [hfind]
    dsimp only
    rw [if_neg hnot]

/-- C8 witness: with user 1's single course fixed, adding user 2's
course does not change user 1's scoped summary; and user 1's delete
request addressed at user 2's course id changes nothing. -/
theorem C8_scoped_ops_respect_ownership_witness :
    ((DB.mk [DBCourse.mk 10 1 1 "Alg" 4 Grade.A,
        DBCourse.mk 20 2 1 "Geo" 3 Grade.B] []).courses.filter
          (fun c => c.userId == 1) =
      (DB.mk [DBCourse.mk 10 1 1 "Alg" 4 Grade.A] []).courses.filter
        (fun c => c.userId == 1)) ∧
    statsSummaryScoped (DB.mk [DBCourse.mk 10 1 1 "Alg" 4 Grade.A,
        DBCourse.mk 20 2 1 "Geo" 3 Grade.B] []) 1 =
      statsSummaryScoped (DB.mk [DBCourse.mk 10 1 1 "Alg" 4 Grade.A] []) 1 ∧
    deleteCourse (DB.mk [DBCourse.mk 10 1 1 "Alg" 4 Grade.A,
        DBCourse.mk 20 2 1 "Geo" 3 Grade.B] []) 1 20 =
      DB.mk [DBCourse.mk 10 1 1 "Alg" 4 Grade.A,
        DBCourse.mk 20 2 1 "Geo" 3 Grade.B] [] :=
  ⟨by decide,
    C8_scoped_ops_respect_ownership.1 1 _ _ (by decide),
    C8_scoped_ops_respect_ownership.2 _ 1 20 (DBCourse.mk 20 2 1 "Geo" 3 Grade.B)
      (by decide) (by decide)⟩

/-- C9: creating, updating or deleting a course leaves every semester
document untouched (in particular both the cached `gpa` field and the
stored `courses` id list), and the explicit
`PATCH /semesters/:id/calculate-gpa` operation leaves the Course
collection untouched and rewrites exactly the addressed semester,
setting its `gpa` to `calculateSemesterGPA` of its currently populated
courses. -/
theorem C9_course_ops_leave_semesters (db : DB) :
    (∀ uid newId semId : ℕ, ∀ name : String, ∀ credits : ℕ, ∀ grade : Grade,
      (createCourse db uid newId semId name credits grade).semesters = db.semesters) ∧
    (∀ uid cid : ℕ, ∀ nn : Option String, ∀ nc : Option ℕ, ∀ ng : Option Grade,
      (updateCourse db uid cid nn nc ng).semesters = db.semesters) ∧
    (∀ uid cid : ℕ, (deleteCourse db uid cid).semesters = db.semesters) ∧
    (∀ uid sid : ℕ, ∀ s : DBSemester,
      db.semesters.find? (fun t => t.id == sid) = some s → s.userId = uid →
        (patchCalculateGpa db uid sid).courses = db.courses ∧
        (patchCalculateGpa db uid sid).semesters = db.semesters.map (fun t =>
          if t.id = sid then
            { t with gpa := calculateSemesterGPA (populateSemesterCourses db s) }
          else t)) := by
  refine ⟨?_, ?_, ?_, ?_⟩
  · intro uid newId semId name credits grade
    unfold createCourse
    split <;> rfl
  · intro uid cid nn nc ng
    unfold updateCourse
    dsimp only
    split
    · split
      · rfl
      · split <;> rfl
    · rfl
  · intro uid cid
    unfold deleteCourse
    split
    · rfl
    · split <;> rfl
  · intro uid sid s hfind huid
    unfold patchCalculateGpa
    rw [hfind]
    dsimp only
    rw [if_pos huid]
    exact ⟨rfl, rfl⟩

/-- C9 witness: recalculating the GPA of semester 1 (owned by user 1,
holding the single 4-credit A course with id 5) rewrites only that
semester's `gpa`, to 4. -/
theorem C9_course_ops_leave_semesters_witness :
    ((DB.mk [DBCourse.mk 5 1 1 "Calc" 4 Grade.A]
        [DBSemester.mk 1 1 1 2024 "Fall" [5] 0]).semesters.find?
          (fun t => t.id == 1) =
        some (DBSemester.mk 1 1 1 2024 "Fall" [5] 0)) ∧
    (patchCalculateGpa (DB.mk [DBCourse.mk 5 1 1 "Calc" 4 Grade.A]
        [DBSemester.mk 1 1 1 2024 "Fall" [5] 0]) 1 1).courses =
      [DBCourse.mk 5 1 1 "Calc" 4 Grade.A] ∧
    (patchCalculateGpa (DB.mk [DBCourse.mk 5 1 1 "Calc" 4 Grade.A]
        [DBSemester.mk 1 1 1 2024 "Fall" [5] 0]) 1 1).semesters =
      [DBSemester.mk 1 1 1 2024 "Fall" [5]
        (calculateSemesterGPA (populateSemesterCourses
          (DB.mk [DBCourse.mk 5 1 1 "Calc" 4 Grade.A]
            [DBSemester.mk 1 1 1 2024 "Fall" [5] 0])
          (DBSemester.mk 1 1 1 2024 "Fall" [5] 0)))] :=
  by
  have h := (C9_course_ops_leave_semesters
    (DB.mk [DBCourse.mk 5 1 1 "Calc" 4 Grade.A]
      [DBSemester.mk 1 1 1 2024 "Fall" [5] 0])).2.2.2 1 1
    (DBSemester.mk 1 1 1 2024 "Fall" [5] 0) rfl rfl
  exact ⟨rfl, h.1, by simpa using h.2⟩

/-- C10 witness: the scenario of spec §8 — (A,4), (B,3), (C,3) — has all
three computed GPAs inside [0,4]. -/
theorem C10_gpa_range_witness :
    (∀ c ∈ [Course.mk 4 Grade.A, Course.mk 3 Grade.B, Course.mk 3 Grade.C], validCourse c) ∧
      0 ≤ calculateSemesterGPA [Course.mk 4 Grade.A, Course.mk 3 Grade.B, Course.mk 3 Grade.C] ∧
      calculateSemesterGPA [Course.mk 4 Grade.A, Course.mk 3 Grade.B, Course.mk 3 Grade.C] ≤ 4 :=
  ⟨by decide, C10_gpa_range.1 _ (by decide)⟩

end GPACalc
